import Mathlib

/-!
Verification development for the repo-summarizer service.

Python strings are modelled as `List Char` (`Str`), one entry per code
point, so that `len`, slicing and concatenation are the list operations.
Byte strings are `List Nat` (`Bytes`), one entry per byte.  Every
definition is translated from the repository's source; doc comments cite
the source location.
-/

set_option maxHeartbeats 1000000

abbrev Str := List Char
abbrev Bytes := List Nat

/-- Coercion from a Lean string literal to the `List Char` model. -/
def pys (s : String) : Str := s.data

/-- Whitespace recognised by Python's default `str.strip` / `rstrip` /
`lstrip` (ASCII part; the further Unicode space characters never occur in
the inputs the claims depend on). -/
def isPyWs (c : Char) : Bool :=
  c = ' ' || c = '\t' || c = '\n' || c = '\r' || c = '\x0b' || c = '\x0c'

/-- Python `text.lstrip()`. -/
def pyLstrip (t : Str) : Str := t.dropWhile isPyWs

/-- Python `text.rstrip()`. -/
def pyRstrip (t : Str) : Str := (t.reverse.dropWhile isPyWs).reverse

/-- Python `text.strip()`. -/
def pyStrip (t : Str) : Str := pyLstrip (pyRstrip t)

/-- Python `text[-n:]`: for `n = 0` the slice `[-0:]` is the whole string,
otherwise the last `n` characters (all of them when `n ≥ len`). -/
def pySliceLast (n : Nat) (t : Str) : Str :=
  if n = 0 then t else t.drop (t.length - n)

/-- `utils/text.py`, `truncate(text, max_chars)`: identity when the text
fits, otherwise the first `int(max_chars * 0.75)` characters (right
stripped) joined to the last `max_chars - head` characters (left
stripped) by the five-character marker `"\n...\n"`.  `int(max_chars *
0.75)` equals `max_chars * 3 / 4` for every budget small enough for the
IEEE product to be exact, which covers all budgets the service uses
(≤ 55000). -/
def truncate (t : Str) (maxChars : Nat) : Str :=
  if t.length ≤ maxChars then t
  else
    let head := maxChars * 3 / 4
    let tail := maxChars - head
    pyRstrip (t.take head) ++ pys "\n...\n" ++ pyLstrip (pySliceLast tail t)

theorem dropWhileWs_length_le (t : Str) : (t.dropWhile isPyWs).length ≤ t.length :=
  ((List.dropWhile_suffix isPyWs).sublist).length_le

theorem pyRstrip_length_le (t : Str) : (pyRstrip t).length ≤ t.length := by
  simpa [pyRstrip] using dropWhileWs_length_le t.reverse

theorem pyLstrip_length_le (t : Str) : (pyLstrip t).length ≤ t.length :=
  dropWhileWs_length_le t

theorem truncate_of_le {t : Str} {b : Nat} (h : t.length ≤ b) : truncate t b = t := by
  simp [truncate, h]

theorem truncate_length_le (t : Str) {b : Nat} (hb : 1 ≤ b) :
    (truncate t b).length ≤ b + 5 := by
  by_cases h : t.length ≤ b
  · rw [truncate_of_le h]; omega
  · have hlen : b < t.length := Nat.lt_of_not_le h
    have hhead : b * 3 / 4 ≤ b := by omega
    have hheadlt : b * 3 / 4 < b := by omega
    have htail1 : 1 ≤ b - b * 3 / 4 := by omega
    have htailb : b - b * 3 / 4 ≤ t.length := by omega
    have hslice : (pySliceLast (b - b * 3 / 4) t).length = b - b * 3 / 4 := by
      rw [pySliceLast, if_neg (by omega)]
      rw [List.length_drop]
      omega
    have h1 : (pyRstrip (t.take (b * 3 / 4))).length ≤ b * 3 / 4 := by
      calc (pyRstrip (t.take (b * 3 / 4))).length ≤ (t.take (b * 3 / 4)).length :=
            pyRstrip_length_le _
        _ ≤ b * 3 / 4 := by rw [List.length_take]; omega
    have h2 : (pyLstrip (pySliceLast (b - b * 3 / 4) t)).length ≤ b - b * 3 / 4 := by
      calc (pyLstrip (pySliceLast (b - b * 3 / 4) t)).length
          ≤ (pySliceLast (b - b * 3 / 4) t).length := pyLstrip_length_le _
        _ = b - b * 3 / 4 := hslice
    rw [truncate, if_neg h]
    simp only [List.length_append]
    have h5 : (pys "\n...\n").length = 5 := by decide
    omega

/-- C3, the claim as stated, is false: truncating below the budget pads
with the five-character elision marker.  At `text = "aaaaa"`, `B = 4` the
output is `"aaa\n...\na"`, nine characters long. -/
theorem C3_counterexample :
    truncate (pys "aaaaa") 4 = pys "aaa\n...\na" ∧
      ¬ (truncate (pys "aaaaa") 4).length ≤ 4 := by
  constructor
  · rfl
  · decide

/-- C3 (amended): for every budget `B ≥ 1` the output of `truncate` has
length at most `B + 5` (the five extra characters are the elision
marker), and an input of length at most `B` is returned unchanged. -/
theorem C3_amended (t : Str) (b : Nat) (hb : 1 ≤ b) :
    (truncate t b).length ≤ b + 5 ∧ (t.length ≤ b → truncate t b = t) :=
  ⟨truncate_length_le t hb, fun h => truncate_of_le h⟩

theorem C3_amended_witness :
    (truncate (pys "hello world") 3).length ≤ 3 + 5 ∧
      ((pys "hello world").length ≤ 3 → truncate (pys "hello world") 3 = pys "hello world") :=
  C3_amended (pys "hello world") 3 (by decide)

/-! ### Base64 transport decoding (`utils/text.py`, `safe_b64decode`) -/

/-- Value of a base64 alphabet character, `none` for characters outside
the alphabet (CPython skips those in non-strict mode; a non-ASCII
character UTF-8-encodes to bytes that are all outside the alphabet, so
skipping the character is equivalent). -/
def b64Val (c : Char) : Option Nat :=
  if 'A' ≤ c ∧ c ≤ 'Z' then some (c.toNat - 65)
  else if 'a' ≤ c ∧ c ≤ 'z' then some (c.toNat - 71)
  else if '0' ≤ c ∧ c ≤ '9' then some (c.toNat + 4)
  else if c = '+' then some 62
  else if c = '/' then some 63
  else none

/-- CPython `binascii.a2b_base64` in non-strict mode (the call made by
`base64.b64decode(..., validate=False)`).  State: `quad` = position in
the current 4-character group, `acc`/`nbits` = pending bits, `pads` =
padding characters seen since the last data character, `out` = bytes
emitted so far.  A padding character terminates successfully once a
group of two or three data characters has enough padding; at the end of
input a partial group (`quad ≠ 0`) raises `binascii.Error`, modelled as
`none`. -/
def a2bBase64 : Str → Nat → Nat → Nat → Nat → Bytes → Option Bytes
  | [], quad, _, _, _, out => if quad = 0 then some out else none
  | c :: rest, quad, acc, nbits, pads, out =>
    if c = '=' then
      if 2 ≤ quad ∧ 4 ≤ quad + pads + 1 then some out
      else a2bBase64 rest quad acc nbits (pads + 1) out
    else
      match b64Val c with
      | none => a2bBase64 rest quad acc nbits pads out
      | some v =>
        let acc' := acc * 64 + v
        let nbits' := nbits + 6
        if 8 ≤ nbits' then
          a2bBase64 rest ((quad + 1) % 4) (acc' % 2 ^ (nbits' - 8)) (nbits' - 8) 0
            (out ++ [acc' / 2 ^ (nbits' - 8)])
        else a2bBase64 rest ((quad + 1) % 4) acc' nbits' 0 out

/-- `utils/text.py`, `safe_b64decode(s)`: decodes `s.encode("utf-8")`
with `base64.b64decode(..., validate=False)`.  `none` models the
`binascii.Error` that `b64decode` still raises (despite
`validate=False`) when the data characters do not fill whole groups. -/
def safe_b64decode (s : Str) : Option Bytes :=
  a2bBase64 s 0 0 0 0 []

/-- C8: the claim is false and the code contradicts the function's own
name and purpose.  `base64.b64decode(s, validate=False)` still raises
`binascii.Error("Incorrect padding")` when the number of data characters
is not a multiple of four — e.g. on `"AA"` — so `safe_b64decode("AA")`
raises instead of returning a byte string (modelled as `none`).  On
well-formed input the function decodes normally (`"QUFB"` ↦ `b"AAA"`,
`"AA=="` ↦ `b"\x00"`). -/
theorem C8_code_bug :
    safe_b64decode (pys "AA") = none ∧
      safe_b64decode (pys "A") = none ∧
      safe_b64decode (pys "QUFB") = some [65, 65, 65] ∧
      safe_b64decode (pys "AA==") = some [0] ∧
      safe_b64decode (pys "") = some [] := by
  refine ⟨?_, ?_, ?_, ?_, ?_⟩ <;> rfl

/-! ### Path helpers (`services/repo_processor.py`) -/

/-- Split a character list at every occurrence of `c` (Python
`str.split(c)` shape: `n` separators yield `n + 1` pieces). -/
def splitChar (c : Char) : Str → List Str
  | [] => [[]]
  | x :: xs =>
    match splitChar c xs with
    | [] => [[]]
    | r :: rs => if x = c then [] :: r :: rs else (x :: r) :: rs

/-- `PurePosixPath(path).parts` for the relative slash-separated paths a
GitHub tree reports: empty and `"."` segments are dropped (pathlib
normalises them away); there is no leading-`/` root marker to model. -/
def pathParts (p : Str) : List Str :=
  (splitChar '/' p).filter (fun s => decide (s ≠ []) && decide (s ≠ pys "."))

/-- `_basename` / `PurePosixPath(path).name`: the last component, `""`
for an empty path. -/
def baseName (p : Str) : Str :=
  (pathParts p).getLastD []

/-- `PurePosixPath(path).suffix`: the final `"."`-led extension of the
name, empty when the only dot is leading or trailing. -/
def pySuffix (p : Str) : Str :=
  let n := baseName p
  let tl := n.reverse.takeWhile (fun c => !(c = '.'))
  if tl.length = n.length then []
  else if 0 < n.length - tl.length - 1 ∧ 1 ≤ tl.length then '.' :: tl.reverse
  else []

/-- `_ext(path)`: the suffix, lower-cased (Python `str.lower`; all
extensions involved are ASCII). -/
def pyExt (p : Str) : Str :=
  (pySuffix p).map Char.toLower

/-- `utils/text.py`, `BINARY_EXTS`. -/
def BINARY_EXTS : List Str :=
  [pys ".png", pys ".jpg", pys ".jpeg", pys ".gif", pys ".webp", pys ".ico",
   pys ".pdf", pys ".zip", pys ".tar", pys ".gz", pys ".7z", pys ".rar",
   pys ".exe", pys ".dll", pys ".so", pys ".dylib",
   pys ".mp3", pys ".mp4", pys ".mov", pys ".avi", pys ".mkv",
   pys ".woff", pys ".woff2", pys ".ttf", pys ".otf"]

/-- `repo_processor.py`, `IGNORE_DIRS`. -/
def IGNORE_DIRS : List Str :=
  [pys ".git", pys ".github", pys ".idea", pys ".vscode",
   pys "node_modules", pys "dist", pys "build", pys "out",
   pys "__pycache__", pys ".pytest_cache", pys ".mypy_cache", pys ".ruff_cache",
   pys ".venv", pys "venv", pys "env",
   pys "vendor",
   pys ".next", pys ".nuxt"]

/-- `repo_processor.py`, `IGNORE_FILES`. -/
def IGNORE_FILES : List Str :=
  [pys "package-lock.json", pys "yarn.lock", pys "pnpm-lock.yaml",
   pys "poetry.lock", pys "pdm.lock", pys "pipfile.lock",
   pys ".DS_Store"]

/-- `repo_processor.py`, `IMPORTANT_BASENAMES`, verbatim.  The Python
source lacks a comma between `"main.py"` and `"package.json"`, so the
adjacent literals concatenate into the single entry
`"main.pypackage.json"`. -/
def IMPORTANT_BASENAMES : List Str :=
  [pys "README.md", pys "README.rst", pys "README.txt", pys "README",
   pys "pyproject.toml", pys "setup.py", pys "setup.cfg", pys "requirements.txt",
   pys "Pipfile", pys "environment.yml",
   pys "Dockerfile", pys "docker-compose.yml", pys "compose.yml",
   pys "mkdocs.yml", pys "docs/conf.py",
   pys "manage.py", pys "wsgi.py", pys "asgi.py", pys "app.py",
   pys "main.pypackage.json", pys "tsconfig.json",
   pys "go.mod", pys "Cargo.toml"]

/-- `repo_processor.py`, `TEXT_EXT_ALLOW`. -/
def TEXT_EXT_ALLOW : List Str :=
  [pys ".py", pys ".md", pys ".rst", pys ".txt",
   pys ".toml", pys ".cfg", pys ".ini", pys ".yml", pys ".yaml", pys ".json",
   pys ".js", pys ".ts", pys ".tsx", pys ".jsx",
   pys ".go", pys ".rs", pys ".java", pys ".kt", pys ".cs", pys ".cpp",
   pys ".c", pys ".h",
   pys ".sh", pys ".bat",
   pys ".html", pys ".css"]

/-- `repo_processor.py`, `_ignored(path)`. -/
def pyIgnored (p : Str) : Bool :=
  IGNORE_FILES.contains (baseName p)
    || (pathParts p).any (fun part => IGNORE_DIRS.contains part)
    || BINARY_EXTS.contains (pyExt p)

/-- `repo_processor.py`, `_is_text_candidate(path)`. -/
def isTextCandidate (p : Str) : Bool :=
  TEXT_EXT_ALLOW.contains (pyExt p)
    || [pys "Dockerfile", pys "LICENSE", pys "Makefile"].contains (baseName p)

/-- `base.upper().startswith("README")` as used by `score_path` and the
README de-duplication check in `select_and_load_files`. -/
def isReadmeName (p : Str) : Bool :=
  (pys "README").isPrefixOf ((baseName p).map Char.toUpper)

/-- `repo_processor.py`, `score_path(path, size)`: the precedence cascade
of priorities with a human-readable reason; the baseline score gets a
size boost of `max(0, 600 - min(size, 60000) // 100)` (Python `//` is
floor division, hence `Int.fdiv`). -/
def score_path (p : Str) (size : Option Int) : Int × Str :=
  if isReadmeName p then (10000, pys "README")
  else if IMPORTANT_BASENAMES.contains (baseName p) then (7000, pys "Key project/config file")
  else if (pathParts p).contains (pys "docs") then (2000, pys "Documentation")
  else if (pathParts p).any (fun part =>
      [pys "src", pys "app", pys "apps"].contains part) then (1600, pys "Main source directory")
  else if (pathParts p).any (fun part =>
      [pys "tests", pys "test"].contains part) then (900, pys "Tests")
  else
    let sc : Int := 300 +
      match size with
      | none => 0
      | some sz => max 0 (600 - (min sz 60000).fdiv 100)
    (sc, pys "Source/text file")

/-- C4: the claim is right and the code has a slip.  A missing comma in
`IMPORTANT_BASENAMES` fuses the adjacent string literals `"main.py"` and
`"package.json"` into the single entry `"main.pypackage.json"`, so
neither `package.json` nor `main.py` is in the curated list; `score_path`
gives both the baseline tier `(300 + size boost, "Source/text file")`
instead of the claimed `(7000, "Key project/config file")`.  Other
curated names such as `requirements.txt` still reach the second tier. -/
theorem C4_code_bug :
    score_path (pys "package.json") none = (300, pys "Source/text file") ∧
      score_path (pys "main.py") none = (300, pys "Source/text file") ∧
      IMPORTANT_BASENAMES.contains (pys "main.pypackage.json") = true ∧
      IMPORTANT_BASENAMES.contains (pys "package.json") = false ∧
      IMPORTANT_BASENAMES.contains (pys "main.py") = false ∧
      score_path (pys "requirements.txt") none = (7000, pys "Key project/config file") := by
  refine ⟨?_, ?_, ?_, ?_, ?_, ?_⟩ <;> decide

/-! ### Error taxonomy (`utils/errors.py`) -/

/-- `utils/errors.py`, `AppError(status_code, message)`. -/
structure AppError where
  status_code : Nat
  message : Str
deriving DecidableEq

/-- `utils/errors.py`, `bad_request`. -/
def bad_request (msg : Str) : AppError := ⟨400, msg⟩

/-- `utils/errors.py`, `upstream_error`. -/
def upstream_error (msg : Str) : AppError := ⟨502, msg⟩

/-! ### Repository URL parsing (`services/github_client.py`) -/

/-- The match of `GITHUB_REPO_RE`
(`^https?://github\.com/(?P<owner>[^/]+)/(?P<repo>[^/#?]+)`) against the
start of a URL, written out as the equivalent deterministic parse: the
literal head with an optional `s`, then a maximal non-empty run of
non-`/` characters (owner), a `/`, and a maximal non-empty run of
characters outside `/#?` (repo).  Greedy matching never needs to
backtrack here because each run is delimited by the very characters it
excludes. -/
def ghMatch (u : Str) : Option (Str × Str) :=
  if (pys "http").isPrefixOf u then
    let afterHttp := u.drop 4
    let afterHost? : Option Str :=
      if (pys "s://github.com/").isPrefixOf afterHttp then some (afterHttp.drop 15)
      else if (pys "://github.com/").isPrefixOf afterHttp then some (afterHttp.drop 14)
      else none
    match afterHost? with
    | none => none
    | some afterHost =>
      let owner := afterHost.takeWhile (fun c => !(c = '/'))
      if owner = [] then none
      else
        match afterHost.drop owner.length with
        | '/' :: rest =>
          let repo := rest.takeWhile (fun c => !(c = '/' || c = '#' || c = '?'))
          if repo = [] then none else some (owner, repo)
        | _ => none
  else none

/-- Python `s.rstrip(chars)`: removes trailing characters drawn from the
character *set* `chars` (not the suffix `chars`). -/
def pyRstripSet (chars : Str) (t : Str) : Str :=
  (t.reverse.dropWhile (fun c => chars.contains c)).reverse

/-- `github_client.py`, `GitHubClient.parse_repo_url`: regex match, else
`bad_request`; the repo group is passed through `rstrip(".git")`. -/
def parse_repo_url (url : Str) : Except AppError (Str × Str) :=
  match ghMatch url with
  | none => .error (bad_request
      (pys "github_url must be a public GitHub repo URL like https://github.com/OWNER/REPO"))
  | some (owner, repo) => .ok (owner, pyRstripSet (pys ".git") repo)

/-- C6: the claim is right and the code has a slip.  `rstrip(".git")`
removes trailing characters from the set `{'.','g','i','t'}` rather than
one literal `".git"` suffix, so `https://github.com/acme/tooling` parses
to repo `"toolin"` (claim: `"tooling"`) and a repo named `"tig"` is
stripped to the empty string.  The intended behaviour does appear for
`"b.git"` ↦ `"b"`, and a non-matching URL raises the 400 `bad_request`
error as claimed. -/
theorem C6_code_bug :
    parse_repo_url (pys "https://github.com/acme/tooling") = .ok (pys "acme", pys "toolin") ∧
      pys "toolin" ≠ pys "tooling" ∧
      parse_repo_url (pys "https://github.com/acme/tig") = .ok (pys "acme", pys "") ∧
      parse_repo_url (pys "https://github.com/a/b.git") = .ok (pys "a", pys "b") ∧
      parse_repo_url (pys "not-a-url") = .error (bad_request
        (pys "github_url must be a public GitHub repo URL like https://github.com/OWNER/REPO")) := by
  refine ⟨rfl, by decide, rfl, rfl, rfl⟩

/-! ### Binary-content heuristic (`utils/text.py`) -/

/-- `utils/text.py`, `is_probably_binary_bytes(b)`: empty is text; a NUL
byte anywhere is binary; otherwise binary iff the control characters
outside tab/newline space among the first 4000 bytes exceed 8% of
`max(1, min(len(b), 4000))`.  The Python comparison `ctrl / denom >
0.08` is modelled exactly as the rational comparison `25 * ctrl >
2 * denom`; the two can only differ within half an ulp of the IEEE
quotient, a boundary no claim touches. -/
def is_probably_binary_bytes (b : Bytes) : Bool :=
  if b = [] then false
  else if b.contains 0 then true
  else
    let ctrl := ((b.take 4000).filter (fun x => x < 9 || (13 < x && x < 32))).length
    let denom := max 1 (min b.length 4000)
    25 * ctrl > 2 * denom

/-! ### Settings (`settings.py`) -/

/-- The configuration fields `select_and_load_files` reads
(`settings.py`; every field is environment-overridable). -/
structure Settings where
  max_files : Nat
  max_file_bytes : Int
  max_total_context_chars : Nat
  max_readme_chars : Nat
deriving DecidableEq

/-- The defaults from `settings.py`. -/
def defaultSettings : Settings :=
  { max_files := 14
    max_file_bytes := 80000
    max_total_context_chars := 45000
    max_readme_chars := 18000 }

/-! ### Data model (`services/repo_processor.py`, GitHub responses) -/

/-- `repo_processor.py`, `@dataclass SelectedFile`. -/
structure SelectedFile where
  path : Str
  reason : Str
  content : Str
deriving DecidableEq

/-- One entry of the recursive tree listing as `select_and_load_files`
reads it: `item.get("type")`, `item.get("path")` (the code treats a
missing or empty path alike via falsiness, modelled as `[]`), and
`item.get("size")` filtered through `isinstance(..., int)` (modelled as
`Option Int`). -/
structure TreeItem where
  type : Str
  path : Str
  size : Option Int
deriving DecidableEq

/-- The `/readme` response as the code reads it: `get("path", "README")`
and the base64 `content` string, whose falsiness check `if readme_obj
and readme_obj.get("content")` is `content ≠ []`. -/
structure ReadmeObj where
  path : Option Str
  content : Str
deriving DecidableEq

/-- A `/contents/{path}` response as the code reads it: `get("type")`
and the base64 `content` string (empty models missing/falsy). -/
structure FileObj where
  type : Str
  content : Str
deriving DecidableEq

/-- Sum of the selected files' content lengths, i.e. Python
`sum(len(x.content) for x in selected)`. -/
def contentSum (l : List SelectedFile) : Nat :=
  (l.map (fun s => s.content.length)).sum

/-! ### Structure hint (`repo_processor.py`, `build_structure_hint`) -/

/-- One step of `top[k] = top.get(k, 0) + 1` on an insertion-ordered
association list (Python dicts preserve insertion order). -/
def bumpCount (k : Str) : List (Str × Nat) → List (Str × Nat)
  | [] => [(k, 1)]
  | (k', n) :: rest => if k' = k then (k', n + 1) :: rest else (k', n) :: bumpCount k rest

/-- The insertion-ordered top-level-segment counts of a path listing. -/
def topCounts (paths : List Str) : List (Str × Nat) :=
  paths.foldl (fun acc p =>
    match pathParts p with
    | [] => acc
    | k :: _ => bumpCount k acc) []

/-- `sorted(top.items(), key=lambda x: x[1], reverse=True)`: a stable
descending sort by count.  `List.insertionSort` with this relation
inserts each element before the first strictly smaller count, which is
exactly CPython's stable `reverse=True` order. -/
def sortCountsDesc (l : List (Str × Nat)) : List (Str × Nat) :=
  l.insertionSort (fun a b => b.2 ≤ a.2)

/-- Decimal rendering of a count, Python `str(int)` for naturals. -/
def natStr (n : Nat) : Str := (Nat.repr n).data

/-- The rendering of one `(name, count)` item:
`` f"`{name}/` ({count} items)" `` when the name is non-empty and
dot-free, else `` f"`{name}` ({count})" ``. -/
def renderTopItem (it : Str × Nat) : Str :=
  if it.1 ≠ [] ∧ ¬ it.1.contains '.' then
    pys "`" ++ it.1 ++ pys "/` (" ++ natStr it.2 ++ pys " items)"
  else
    pys "`" ++ it.1 ++ pys "` (" ++ natStr it.2 ++ pys ")"

/-- The eight most frequent top-level entries, in the stable descending
count order the code produces. -/
def topItems (paths : List Str) : List (Str × Nat) :=
  (sortCountsDesc (topCounts paths)).take 8

/-- `repo_processor.py`, `build_structure_hint(tree_paths)`.  The Python
conditional expression binds as
`("Top-level layout: " + ", ".join(parts)) if parts else
"Top-level layout: (could not infer)"`. -/
def build_structure_hint (tree_paths : List Str) : Str :=
  let parts := (topItems tree_paths).map renderTopItem
  if parts ≠ [] then pys "Top-level layout: " ++ List.intercalate (pys ", ") parts
  else pys "Top-level layout: (could not infer)"

/-! ### Technology extraction (`repo_processor.py`, `extract_tech_from_files`) -/

/-- Python `str.splitlines()` boundaries (the code points CPython
recognises; `\r\n` counts as one boundary). -/
def isLineBreak (c : Char) : Bool :=
  c = '\n' || c = '\r' || c = '\x0b' || c = '\x0c' ||
    c = '\x1c' || c = '\x1d' || c = '\x1e' || c = '\x85' ||
    c = '\u2028' || c = '\u2029'

/-- Python `str.splitlines()`: split at every line boundary, no trailing
empty line for a trailing boundary. -/
def splitlines : Str → List Str
  | [] => []
  | '\r' :: '\n' :: rest =>
    match splitlines rest with
    | [] => [[]]
    | ls => [] :: ls
  | c :: rest =>
    if isLineBreak c then
      match splitlines rest with
      | [] => [[]]
      | ls => [] :: ls
    else
      match splitlines rest with
      | [] => [[c]]
      | l :: ls => (c :: l) :: ls

/-- Python `s.split(sep)[0]`: the part of `s` before the first occurrence
of the (non-empty) separator, all of `s` if absent. -/
def takeBeforeSub (sep : Str) : Str → Str
  | [] => []
  | c :: rest =>
    if sep.isPrefixOf (c :: rest) then []
    else c :: takeBeforeSub sep rest

/-- Python `sub in s` for strings: substring containment. -/
def containsSub (sub : Str) : Str → Bool
  | [] => sub.isEmpty
  | c :: rest => sub.isPrefixOf (c :: rest) || containsSub sub rest

/-- `tech.add(x)` on a set modelled as a duplicate-free list (insertion
order is irrelevant: the result is sorted before use). -/
def addTech (x : Str) (s : List Str) : List Str :=
  if x ∈ s then s else s ++ [x]

/-- The package-name cleanup of one `requirements.txt` line:
`line.split("==")[0].split(">=")[0].split("<=")[0].split("[")[0].strip()`. -/
def reqPkgName (line : Str) : Str :=
  pyStrip (takeBeforeSub (pys "[")
    (takeBeforeSub (pys "<=") (takeBeforeSub (pys ">=") (takeBeforeSub (pys "==") line))))

/-- The `requirements.txt` loop body: skip blank and `#` lines, else add
the cleaned package name when non-empty. -/
def reqLineStep (s : List Str) (rawLine : Str) : List Str :=
  let line := pyStrip rawLine
  if line = [] then s
  else if (pys "#").isPrefixOf line then s
  else
    let pkg := reqPkgName line
    if pkg = [] then s else addTech pkg s

/-- Python string comparison `a <= b`: lexicographic by code point. -/
def strLe : Str → Str → Bool
  | [], _ => true
  | _ :: _, [] => false
  | a :: as, b :: bs =>
    if a.toNat < b.toNat then true
    else if b.toNat < a.toNat then false
    else strLe as bs

/-- The file-texts mapping (`Dict[str, str]`), looked up by name. -/
abbrev FileTexts := Str → Option Str

/-- `repo_processor.py`, `extract_tech_from_files(file_texts)`.

The `package.json` branch runs `json.loads` inside `try/except` and
collects the key names of `dependencies` and `devDependencies`; the
whole of `json.loads` is abstracted by the oracle `pjKeys`, which
returns the key names the loop adds before any swallowed exception
(`[]` when parsing fails at once).  Every property proved below holds
for *every* such oracle, hence in particular for CPython's `json`.  The
rest is translated directly: the `requirements.txt` line loop, the
substring probes of `pyproject.toml`, and the final
`sorted(tech)[:25]` (Python sorts strings by code point; on a
duplicate-free list every correct sort yields the same result, so the
choice of `insertionSort` is immaterial).

The `requirements.txt` stage of the `tech` set. -/
def techStage1 (file_texts : FileTexts) : List Str :=
  match file_texts (pys "requirements.txt") with
  | some req => if req ≠ [] then (splitlines req).foldl reqLineStep [] else []
  | none => []

/-- The `package.json` stage added to the `requirements.txt` stage. -/
def techStage2 (pjKeys : Str → List Str) (file_texts : FileTexts) : List Str :=
  match file_texts (pys "package.json") with
  | some pj =>
    if pj ≠ [] then (pjKeys pj).foldl (fun s k => addTech k s) (techStage1 file_texts)
    else techStage1 file_texts
  | none => techStage1 file_texts

/-- The `pyproject.toml` substring-probe stage added to the rest. -/
def techStage3 (pjKeys : Str → List Str) (file_texts : FileTexts) : List Str :=
  match file_texts (pys "pyproject.toml") with
  | some pyproj =>
    if pyproj ≠ [] then
      let lowered := pyproj.map Char.toLower
      let a := if containsSub (pys "django") lowered then
          addTech (pys "Django") (techStage2 pjKeys file_texts)
        else techStage2 pjKeys file_texts
      let b := if containsSub (pys "fastapi") lowered then addTech (pys "FastAPI") a else a
      if containsSub (pys "torch") lowered then addTech (pys "PyTorch") b else b
    else techStage2 pjKeys file_texts
  | none => techStage2 pjKeys file_texts

def extract_tech_from_files (pjKeys : Str → List Str) (file_texts : FileTexts) : List Str :=
  ((techStage3 pjKeys file_texts).insertionSort (fun a b => strLe a b = true)).take 25

theorem strLe_total : ∀ a b : Str, strLe a b = true ∨ strLe b a = true := by
  intro a
  induction a with
  | nil => intro b; exact Or.inl rfl
  | cons x xs ih =>
    intro b
    cases b with
    | nil => exact Or.inr rfl
    | cons y ys =>
      simp only [strLe]
      rcases Nat.lt_trichotomy x.toNat y.toNat with h | h | h
      · left; rw [if_pos h]
      · rw [if_neg (by omega), if_neg (by omega), if_neg (by omega), if_neg (by omega)]
        exact ih ys
      · right; rw [if_pos h]

theorem strLe_trans : ∀ a b c : Str, strLe a b = true → strLe b c = true → strLe a c = true := by
  intro a
  induction a with
  | nil => intro b c _ _; rfl
  | cons x xs ih =>
    intro b c h1 h2
    cases b with
    | nil => exact absurd h1 (by simp [strLe])
    | cons y ys =>
      cases c with
      | nil => exact absurd h2 (by simp [strLe])
      | cons z zs =>
        simp only [strLe] at h1 h2 ⊢
        rcases Nat.lt_trichotomy x.toNat y.toNat with hxy | hxy | hxy
        · rcases Nat.lt_trichotomy y.toNat z.toNat with hyz | hyz | hyz
          · rw [if_pos (by omega)]
          · rw [if_pos (by omega)]
          · rw [if_neg (by omega), if_pos hyz] at h2
            exact absurd h2 (by simp)
        · rw [if_neg (by omega), if_neg (by omega)] at h1
          rcases Nat.lt_trichotomy y.toNat z.toNat with hyz | hyz | hyz
          · rw [if_pos (by omega)]
          · rw [if_neg (by omega), if_neg (by omega)] at h2
            rw [if_neg (by omega), if_neg (by omega)]
            exact ih ys zs h1 h2
          · rw [if_neg (by omega), if_pos hyz] at h2
            exact absurd h2 (by simp)
        · rw [if_neg (by omega), if_pos hxy] at h1
          exact absurd h1 (by simp)

theorem addTech_nodup (x : Str) {s : List Str} (h : s.Nodup) : (addTech x s).Nodup := by
  unfold addTech
  split
  · exact h
  · next hx =>
    refine h.append (List.nodup_singleton x) ?_
    intro a ha hb
    rw [List.mem_singleton] at hb
    exact hx (hb ▸ ha)

theorem foldl_addTech_nodup {β : Type} (f : List Str → β → List Str)
    (hf : ∀ s b, s.Nodup → (f s b).Nodup) :
    ∀ (xs : List β) (s : List Str), s.Nodup → (xs.foldl f s).Nodup
  | [], _, h => h
  | x :: xs, s, h => foldl_addTech_nodup f hf xs (f s x) (hf s x h)

theorem reqLineStep_nodup (s : List Str) (line : Str) (h : s.Nodup) :
    (reqLineStep s line).Nodup := by
  unfold reqLineStep
  dsimp only
  split
  · exact h
  · split
    · exact h
    · split
      · exact h
      · exact addTech_nodup _ h

theorem techStage1_nodup (ft : FileTexts) : (techStage1 ft).Nodup := by
  unfold techStage1
  split
  · split
    · exact foldl_addTech_nodup reqLineStep reqLineStep_nodup _ _ List.nodup_nil
    · exact List.nodup_nil
  · exact List.nodup_nil

theorem techStage2_nodup (pjKeys : Str → List Str) (ft : FileTexts) :
    (techStage2 pjKeys ft).Nodup := by
  unfold techStage2
  split
  · split
    · exact foldl_addTech_nodup _ (fun s k h => addTech_nodup k h) _ _ (techStage1_nodup ft)
    · exact techStage1_nodup ft
  · exact techStage1_nodup ft

theorem techStage3_nodup (pjKeys : Str → List Str) (ft : FileTexts) :
    (techStage3 pjKeys ft).Nodup := by
  unfold techStage3
  split
  · split
    · dsimp only
      split <;> split <;> split <;>
        first
          | exact addTech_nodup _ (addTech_nodup _ (addTech_nodup _ (techStage2_nodup pjKeys ft)))
          | exact addTech_nodup _ (addTech_nodup _ (techStage2_nodup pjKeys ft))
          | exact addTech_nodup _ (techStage2_nodup pjKeys ft)
          | exact techStage2_nodup pjKeys ft
    · exact techStage2_nodup pjKeys ft
  · exact techStage2_nodup pjKeys ft

/-- C5 (amended): for every oracle standing for the `json.loads` block
and every file-text mapping — malformed manifests included —
`extract_tech_from_files` returns (it is a total function: every parse
failure is swallowed) a list of at most 25 entries, sorted by code
point, with no two entries equal as exact strings.  The original
claim's two stronger points are dropped: entries are deduplicated
case-*sensitively*, not case-insensitively, and an entry can be empty
(an empty dependency key in `package.json`). -/
theorem C5_amended (pjKeys : Str → List Str) (ft : FileTexts) :
    (extract_tech_from_files pjKeys ft).length ≤ 25 ∧
      (extract_tech_from_files pjKeys ft).Pairwise (fun a b => strLe a b = true) ∧
      (extract_tech_from_files pjKeys ft).Nodup := by
  haveI hTot : IsTotal Str (fun a b => strLe a b = true) := ⟨strLe_total⟩
  haveI hTrans : IsTrans Str (fun a b => strLe a b = true) := ⟨strLe_trans⟩
  unfold extract_tech_from_files
  refine ⟨List.length_take_le 25 _, ?_, ?_⟩
  · exact List.Pairwise.sublist (List.take_sublist 25 _)
      (List.sorted_insertionSort (fun a b => strLe a b = true) (techStage3 pjKeys ft))
  · exact List.Nodup.sublist (List.take_sublist 25 _)
      (((List.perm_insertionSort (fun a b => strLe a b = true) _).nodup_iff).mpr
        (techStage3_nodup pjKeys ft))

/-- The loaded texts of the C5 counterexample run: a `requirements.txt`
listing `Flask` and `flask`, and a `package.json` whose `dependencies`
object has the empty string as its only key. -/
def c5FileTexts : FileTexts := fun k =>
  if k = pys "requirements.txt" then some (pys "Flask\nflask")
  else if k = pys "package.json" then
    some (pys "\x7b\"dependencies\": \x7b\"\": \"1\"\x7d\x7d")
  else none

/-- The dependency-key names CPython's `json.loads` yields on that
`package.json`: `json.loads('{"dependencies": {"": "1"}}')` parses
fine and `data["dependencies"].keys()` is `[""]`. -/
def c5PjKeys : Str → List Str := fun s =>
  if s = pys "\x7b\"dependencies\": \x7b\"\": \"1\"\x7d\x7d" then [[]] else []

/-- C5, the claim as stated, is false: deduplication is case-sensitive
(`tech` is a plain `set` of strings) and entries can be empty.  On the
inputs above the result is `["", "Flask", "flask"]`: it contains the
empty entry, and the two entries `"Flask"`/`"flask"` are equal
case-insensitively. -/
theorem C5_counterexample :
    extract_tech_from_files c5PjKeys c5FileTexts = [pys "", pys "Flask", pys "flask"] ∧
      pys "" ∈ extract_tech_from_files c5PjKeys c5FileTexts ∧
      pys "Flask" ∈ extract_tech_from_files c5PjKeys c5FileTexts ∧
      pys "flask" ∈ extract_tech_from_files c5PjKeys c5FileTexts ∧
      pys "Flask" ≠ pys "flask" ∧
      (pys "Flask").map Char.toLower = (pys "flask").map Char.toLower := by
  refine ⟨?_, ?_, ?_, ?_, ?_, ?_⟩ <;> decide

/-! ### File selection (`repo_processor.py`, `select_and_load_files`)

The GitHub client is modelled by oracles: `get_readme` is the `/readme`
response (or `None`), `get_file path` the `/contents/{path}` response
(or `None`); both carry the raw base64 `content` string the code feeds
to `safe_b64decode`.  `bytes.decode("utf-8", errors="replace")` is
abstracted by the parameter `utf8`; every universally quantified theorem
below holds for every such decoder, hence in particular for CPython's,
and concrete runs instantiate it on ASCII bytes where the decoder is
forced. -/

/-- A scoring tuple `(score, path, reason, size)` of the candidate list. -/
structure Cand where
  score : Int
  path : Str
  reason : Str
  size : Option Int
deriving DecidableEq

/-- `size is not None and size > settings.max_file_bytes`. -/
def sizeTooBig (st : Settings) : Option Int → Bool
  | some sz => decide (sz > st.max_file_bytes)
  | none => false

/-- The candidate-collection loop of `select_and_load_files` (step 1):
walks the tree items in order, collecting `all_paths` (every blob with a
truthy path, before any filtering) and the scored candidates (blobs that
survive `_ignored`, `_is_text_candidate` and the per-file size cap). -/
def buildLists (st : Settings) : List TreeItem → List Cand × List Str
  | [] => ([], [])
  | it :: rest =>
    let acc := buildLists st rest
    if it.type ≠ pys "blob" then acc
    else if it.path = [] then acc
    else if pyIgnored it.path ∨ ¬ isTextCandidate it.path then (acc.1, it.path :: acc.2)
    else if sizeTooBig st it.size then (acc.1, it.path :: acc.2)
    else
      let scored := score_path it.path it.size
      (⟨scored.1, it.path, scored.2, it.size⟩ :: acc.1, it.path :: acc.2)

/-- `candidates.sort(key=lambda x: x[0], reverse=True)` followed by the
4×-`max_files` cap.  The stable descending sort is `insertionSort`
inserting before the first strictly smaller score (CPython's stable
`reverse=True` order). -/
def sortedCands (st : Settings) (items : List TreeItem) : List Cand :=
  ((buildLists st items).1.insertionSort (fun a b => b.score ≤ a.score)).take
    (st.max_files * 4)

/-- The unfiltered blob path listing feeding `build_structure_hint`. -/
def allPaths (st : Settings) (items : List TreeItem) : List Str :=
  (buildLists st items).2

/-- `loaded_texts`, a `Dict[str, str]` keyed by basename. -/
def emptyMap : FileTexts := fun _ => none

/-- Dictionary update `loaded_texts[k] = v`. -/
def updateMap (m : FileTexts) (k v : Str) : FileTexts :=
  fun k' => if k' = k then some v else m k'

/-- `s.reason == "README"`, the predicate of the README de-duplication
check `any(s.reason == "README" for s in selected)`. -/
def isReadmeReason (s : SelectedFile) : Bool :=
  decide (s.reason = pys "README")

/-- Step 2 of `select_and_load_files`: the dedicated `/readme` fetch.  A
falsy response or falsy `content` contributes nothing; binary content
contributes nothing; otherwise the decoded text is truncated to the
README budget and forms the initial selection.  `none` propagates the
`binascii.Error` `safe_b64decode` can raise. -/
def readmeSelection (st : Settings) (utf8 : Bytes → Str) :
    Option ReadmeObj → Option (List SelectedFile)
  | none => some []
  | some r =>
    if r.content = [] then some []
    else
      match safe_b64decode r.content with
      | none => none
      | some b =>
        if is_probably_binary_bytes b then some []
        else
          some [{ path := r.path.getD (pys "README"), reason := pys "README",
                  content := truncate (utf8 b) st.max_readme_chars }]

/-- Step 3 of `select_and_load_files`: the budgeted fetch loop, with the
running state `(selected, total_chars, loaded_texts)`.  Per iteration:
stop at the max-files cap; skip a README-named candidate when a
`"README"`-reason entry already exists; stop once `total_chars` has
reached the total budget; then fetch, skipping falsy/non-file/binary
responses; otherwise truncate to
`min(12000, max(2000, budget - total_chars))` and append.  `none`
propagates the `binascii.Error` `safe_b64decode` can raise. -/
def fetch_loop (st : Settings) (utf8 : Bytes → Str) (get_file : Str → Option FileObj) :
    List Cand → List SelectedFile → Nat → FileTexts →
    Option (List SelectedFile × FileTexts)
  | [], sel, _, loaded => some (sel, loaded)
  | c :: rest, sel, total, loaded =>
    if st.max_files ≤ sel.length then some (sel, loaded)
    else if isReadmeName c.path ∧ sel.any isReadmeReason then
      fetch_loop st utf8 get_file rest sel total loaded
    else if st.max_total_context_chars ≤ total then some (sel, loaded)
    else
      match get_file c.path with
      | none => fetch_loop st utf8 get_file rest sel total loaded
      | some obj =>
        if obj.type ≠ pys "file" ∨ obj.content = [] then
          fetch_loop st utf8 get_file rest sel total loaded
        else
          match safe_b64decode obj.content with
          | none => none
          | some b =>
            if is_probably_binary_bytes b then
              fetch_loop st utf8 get_file rest sel total loaded
            else
              let txt := truncate (utf8 b)
                (min 12000 (max 2000 (st.max_total_context_chars - total)))
              fetch_loop st utf8 get_file rest
                (sel ++ [{ path := c.path, reason := c.reason, content := txt }])
                (total + txt.length) (updateMap loaded (baseName c.path) txt)

/-- `repo_processor.py`, `select_and_load_files`: candidates are
collected and stable-sorted by descending score, capped at
`max_files * 4`; the README is attempted first via the dedicated
`/readme` call; the capped candidates are then fetched under the budget;
the result is the selection, the structure hint over the unfiltered blob
paths, and the technologies extracted from the basename-keyed loaded
texts. -/
def select_and_load_files (st : Settings) (utf8 : Bytes → Str) (pjKeys : Str → List Str)
    (get_readme : Option ReadmeObj) (get_file : Str → Option FileObj)
    (tree_items : List TreeItem) : Option (List SelectedFile × Str × List Str) :=
  match readmeSelection st utf8 get_readme with
  | none => none
  | some sel0 =>
    match fetch_loop st utf8 get_file (sortedCands st tree_items) sel0
        (contentSum sel0) emptyMap with
    | none => none
    | some (sel, loaded) =>
      some (sel, build_structure_hint (allPaths st tree_items),
        extract_tech_from_files pjKeys loaded)

theorem contentSum_append (l : List SelectedFile) (x : SelectedFile) :
    contentSum (l ++ [x]) = contentSum l + x.content.length := by
  simp [contentSum]

/-- The fetch loop only appends to the selection. -/
theorem fetch_loop_extends (st : Settings) (utf8 : Bytes → Str)
    (gf : Str → Option FileObj) :
    ∀ (cands : List Cand) (sel : List SelectedFile) (total : Nat) (loaded : FileTexts)
      (out : List SelectedFile × FileTexts),
      fetch_loop st utf8 gf cands sel total loaded = some out →
      ∃ ext, out.1 = sel ++ ext := by
  intro cands
  induction cands with
  | nil =>
    intro sel total loaded out h
    simp only [fetch_loop, Option.some.injEq] at h
    exact ⟨[], by rw [← h]; simp⟩
  | cons c rest ih =>
    intro sel total loaded out h
    simp only [fetch_loop] at h
    split at h
    · exact ⟨[], by cases h; simp⟩
    · split at h
      · exact ih sel total loaded out h
      · split at h
        · exact ⟨[], by cases h; simp⟩
        · split at h
          · exact ih sel total loaded out h
          · split at h
            · exact ih sel total loaded out h
            · split at h
              · exact absurd h (by simp)
              · split at h
                · exact ih sel total loaded out h
                · obtain ⟨ext, hext⟩ := ih _ _ _ _ h
                  exact ⟨_, by rw [hext, List.append_assoc]⟩

/-- The fetch loop never grows the selection beyond
`max(max_files, len(initial selection))`: an append only happens while
the count is strictly below the cap. -/
theorem fetch_loop_length (st : Settings) (utf8 : Bytes → Str)
    (gf : Str → Option FileObj) :
    ∀ (cands : List Cand) (sel : List SelectedFile) (total : Nat) (loaded : FileTexts)
      (out : List SelectedFile × FileTexts),
      fetch_loop st utf8 gf cands sel total loaded = some out →
      out.1.length ≤ max st.max_files sel.length := by
  intro cands
  induction cands with
  | nil =>
    intro sel total loaded out h
    simp only [fetch_loop] at h
    cases h
    exact Nat.le_max_right _ _
  | cons c rest ih =>
    intro sel total loaded out h
    simp only [fetch_loop] at h
    split at h
    · cases h; exact Nat.le_max_right _ _
    · next hcap =>
      split at h
      · exact ih sel total loaded out h
      · split at h
        · cases h; exact Nat.le_max_right _ _
        · split at h
          · exact ih sel total loaded out h
          · split at h
            · exact ih sel total loaded out h
            · split at h
              · exact absurd h (by simp)
              · split at h
                · exact ih sel total loaded out h
                · have hlt : sel.length < st.max_files := Nat.lt_of_not_le hcap
                  have := ih _ _ _ _ h
                  rw [List.length_append] at this
                  simp only [List.length_singleton] at this
                  omega

/-- The budget invariant of the fetch loop: starting from a running
total that matches the selection, the final selection's character sum
is bounded by `max(budget + 2004, initial total)`.  The slack 2004 is
exact: a file is only fetched while `total < budget`, and its truncated
text has length at most `min(12000, max(2000, budget - total)) + 5`, so
one append can overshoot the budget by at most `1999 + 5` characters. -/
theorem fetch_loop_sum (st : Settings) (utf8 : Bytes → Str)
    (gf : Str → Option FileObj) :
    ∀ (cands : List Cand) (sel : List SelectedFile) (total : Nat) (loaded : FileTexts)
      (out : List SelectedFile × FileTexts),
      total = contentSum sel →
      fetch_loop st utf8 gf cands sel total loaded = some out →
      contentSum out.1 ≤ max (st.max_total_context_chars + 2004) total := by
  intro cands
  induction cands with
  | nil =>
    intro sel total loaded out heq h
    simp only [fetch_loop] at h
    cases h
    dsimp only
    omega
  | cons c rest ih =>
    intro sel total loaded out heq h
    simp only [fetch_loop] at h
    split at h
    · cases h; dsimp only; omega
    · split at h
      · exact ih sel total loaded out heq h
      · split at h
        · cases h; dsimp only; omega
        · next hbud =>
          split at h
          · exact ih sel total loaded out heq h
          · split at h
            · exact ih sel total loaded out heq h
            · split at h
              · exact absurd h (by simp)
              · split at h
                · exact ih sel total loaded out heq h
                · next b _ _ =>
                  have htotlt : total < st.max_total_context_chars :=
                    Nat.lt_of_not_le hbud
                  generalize hT : truncate (utf8 b)
                      (min 12000 (max 2000 (st.max_total_context_chars - total))) = txt at h
                  have htxt : txt.length ≤
                      min 12000 (max 2000 (st.max_total_context_chars - total)) + 5 := by
                    rw [← hT]
                    exact truncate_length_le _ (by omega)
                  have heq2 : total + txt.length =
                      contentSum (sel ++ [{ path := c.path, reason := c.reason, content := txt }]) := by
                    rw [contentSum_append, heq]
                  have hres := ih _ _ _ _ heq2 h
                  omega

/-- `score_path` reports the reason `"README"` only for README-named
paths (the cascade's first branch). -/
theorem score_path_reason (p : Str) (sz : Option Int) :
    (score_path p sz).2 = pys "README" → isReadmeName p = true := by
  unfold score_path
  split
  · next h => exact fun _ => h
  · split
    · exact fun h => absurd h (by decide)
    · split
      · exact fun h => absurd h (by decide)
      · split
        · exact fun h => absurd h (by decide)
        · split
          · exact fun h => absurd h (by decide)
          · intro h
            have h2 : pys "Source/text file" = pys "README" := h
            exact absurd h2 (by decide)

/-- Every collected candidate carries the reason `score_path` gave it. -/
theorem buildLists_reason (st : Settings) :
    ∀ (items : List TreeItem) (c : Cand), c ∈ (buildLists st items).1 →
      c.reason = (score_path c.path c.size).2 := by
  intro items
  induction items with
  | nil => intro c hc; simp [buildLists] at hc
  | cons it rest ih =>
    intro c hc
    simp only [buildLists] at hc
    split at hc
    · exact ih c hc
    · split at hc
      · exact ih c hc
      · split at hc
        · exact ih c hc
        · split at hc
          · exact ih c hc
          · rcases List.mem_cons.mp hc with hc | hc
            · subst hc; rfl
            · exact ih c hc

/-- Candidates that survive the sort and the 4×-cap still come from the
collected candidate list. -/
theorem sortedCands_mem (st : Settings) (items : List TreeItem) (c : Cand)
    (hc : c ∈ sortedCands st items) : c ∈ (buildLists st items).1 := by
  unfold sortedCands at hc
  have := List.mem_of_mem_take hc
  rwa [List.mem_insertionSort] at this

/-- The fetch loop preserves "at most one `"README"`-reason entry": a
README-named candidate is skipped as soon as such an entry exists, and
only README-named candidates can be appended with that reason. -/
theorem fetch_loop_readme_count (st : Settings) (utf8 : Bytes → Str)
    (gf : Str → Option FileObj) :
    ∀ (cands : List Cand) (sel : List SelectedFile) (total : Nat) (loaded : FileTexts)
      (out : List SelectedFile × FileTexts),
      (∀ c ∈ cands, c.reason = pys "README" → isReadmeName c.path = true) →
      sel.countP isReadmeReason ≤ 1 →
      fetch_loop st utf8 gf cands sel total loaded = some out →
      out.1.countP isReadmeReason ≤ 1 := by
  intro cands
  induction cands with
  | nil =>
    intro sel total loaded out _ hsel h
    simp only [fetch_loop] at h
    cases h
    exact hsel
  | cons c rest ih =>
    intro sel total loaded out hcands hsel h
    have hcands' : ∀ c' ∈ rest, c'.reason = pys "README" → isReadmeName c'.path = true :=
      fun c' hc' => hcands c' (List.mem_cons_of_mem c hc')
    have hchead := hcands c (List.mem_cons_self c rest)
    simp only [fetch_loop] at h
    split at h
    · cases h; exact hsel
    · next hskip =>
      split at h
      · exact ih sel total loaded out hcands' hsel h
      · next hnoskip =>
        split at h
        · cases h; exact hsel
        · split at h
          · exact ih sel total loaded out hcands' hsel h
          · split at h
            · exact ih sel total loaded out hcands' hsel h
            · split at h
              · exact absurd h (by simp)
              · split at h
                · exact ih sel total loaded out hcands' hsel h
                · next b _ _ =>
                  refine ih _ _ _ _ hcands' ?_ h
                  generalize truncate (utf8 b)
                    (min 12000 (max 2000 (st.max_total_context_chars - total))) = txt
                  rw [List.countP_append]
                  by_cases hr : c.reason = pys "README"
                  · have hreadme : isReadmeName c.path = true := hchead hr
                    have hany : sel.any isReadmeReason = false := by
                      rcases Bool.eq_false_or_eq_true (sel.any isReadmeReason) with ha | ha
                      · exact absurd ⟨hreadme, ha⟩ hnoskip
                      · exact ha
                    have hzero : sel.countP isReadmeReason = 0 := by
                      rw [List.countP_eq_zero]
                      intro a ha
                      have := (List.any_eq_false).mp hany a ha
                      simp [this]
                    simp [hzero, List.countP_cons, isReadmeReason, hr]
                  · have hz : List.countP isReadmeReason
                        [{ path := c.path, reason := c.reason, content := txt }] = 0 := by
                      simp [List.countP_cons, isReadmeReason, hr]
                    omega

/-- The `/readme` step yields at most one entry, and at most one
`"README"`-reason entry. -/
theorem readmeSelection_count (st : Settings) (utf8 : Bytes → Str)
    (gr : Option ReadmeObj) (sel0 : List SelectedFile)
    (h : readmeSelection st utf8 gr = some sel0) :
    sel0.length ≤ 1 ∧ sel0.countP isReadmeReason ≤ 1 := by
  cases gr with
  | none => cases h; exact ⟨by decide, by decide⟩
  | some r =>
    simp only [readmeSelection] at h
    split at h
    · cases h; exact ⟨by decide, by decide⟩
    · split at h
      · exact absurd h (by simp)
      · next b hb =>
        split at h
        · cases h; exact ⟨by decide, by decide⟩
        · cases h
          refine ⟨by simp, ?_⟩
          simp [List.countP_cons, isReadmeReason]

/-- The `/readme` step contributes at most
`max_readme_chars + 5` characters (the truncated README). -/
theorem readmeSelection_sum (st : Settings) (utf8 : Bytes → Str)
    (gr : Option ReadmeObj) (sel0 : List SelectedFile)
    (hrm : 1 ≤ st.max_readme_chars)
    (h : readmeSelection st utf8 gr = some sel0) :
    contentSum sel0 ≤ st.max_readme_chars + 5 := by
  cases gr with
  | none => cases h; simp [contentSum]
  | some r =>
    simp only [readmeSelection] at h
    split at h
    · cases h; simp [contentSum]
    · split at h
      · exact absurd h (by simp)
      · next b hb =>
        split at h
        · cases h; simp [contentSum]
        · cases h
          have := truncate_length_le (utf8 b) hrm
          simpa [contentSum] using this

/-- C1 (amended): for every configuration with a positive README budget,
every oracle environment and every produced selection, the number of
selected files is at most `max(max_files, 1)` (the README entry is added
without consulting the max-files cap) and the sum of the content
lengths is at most
`max(max_total_context_chars + 2004, max_readme_chars + 5)`: the
original budget can be overshot by up to 2004 characters (the 2000-char
truncation floor plus the 5-char elision marker, entered from one
character below the budget), and the README is truncated against its
own, larger budget only. -/
theorem C1_amended (st : Settings) (utf8 : Bytes → Str) (pjKeys : Str → List Str)
    (gr : Option ReadmeObj) (gf : Str → Option FileObj) (tree : List TreeItem)
    (hrm : 1 ≤ st.max_readme_chars)
    (sel : List SelectedFile) (hint : Str) (tech : List Str)
    (h : select_and_load_files st utf8 pjKeys gr gf tree = some (sel, hint, tech)) :
    sel.length ≤ max st.max_files 1 ∧
      contentSum sel ≤ max (st.max_total_context_chars + 2004) (st.max_readme_chars + 5) := by
  unfold select_and_load_files at h
  cases hsel0 : readmeSelection st utf8 gr with
  | none => rw [hsel0] at h; exact absurd h (by simp)
  | some sel0 =>
    rw [hsel0] at h
    dsimp only at h
    cases hloop : fetch_loop st utf8 gf (sortedCands st tree) sel0 (contentSum sel0) emptyMap with
    | none => rw [hloop] at h; exact absurd h (by simp)
    | some out =>
      obtain ⟨selF, loadedF⟩ := out
      rw [hloop] at h
      dsimp only at h
      simp only [Option.some.injEq, Prod.mk.injEq] at h
      obtain ⟨hsel, -, -⟩ := h
      subst hsel
      have hcount := readmeSelection_count st utf8 gr sel0 hsel0
      have hlen := fetch_loop_length st utf8 gf (sortedCands st tree) sel0
        (contentSum sel0) emptyMap (selF, loadedF) hloop
      have hsum := fetch_loop_sum st utf8 gf (sortedCands st tree) sel0
        (contentSum sel0) emptyMap (selF, loadedF) rfl hloop
      have hrsum := readmeSelection_sum st utf8 gr sel0 hrm hsel0
      dsimp only at hlen hsum
      constructor
      · omega
      · omega

/-- `bytes.decode("utf-8", errors="replace")` restricted to ASCII bytes,
where the decoder is forced: byte `n < 128` decodes to the code point
`n`.  All concrete runs below use ASCII contents only. -/
def asciiDecode : Bytes → Str := fun b => b.map Char.ofNat

/-- The `json.loads` oracle of runs in which no `package.json` is ever
loaded. -/
def pjKeysNone : Str → List Str := fun _ => []

/-- A GitHub contents oracle for which every file fetch fails. -/
def gfNone : Str → Option FileObj := fun _ => none

theorem C1_amended_witness :
    ([] : List SelectedFile).length ≤ max defaultSettings.max_files 1 ∧
      contentSum [] ≤ max (defaultSettings.max_total_context_chars + 2004)
        (defaultSettings.max_readme_chars + 5) :=
  C1_amended defaultSettings asciiDecode pjKeysNone none gfNone [] (by decide)
    [] (pys "Top-level layout: (could not infer)") [] (by rfl)

/-- A configuration (all fields are environment-overridable) with a
30-character context budget and room for 3 files. -/
def c1SettingsA : Settings :=
  { max_files := 3, max_file_bytes := 80000,
    max_total_context_chars := 30, max_readme_chars := 18000 }

/-- Base64 of 24 `"A"` bytes (`"QUFB"` = base64 of `b"AAA"`, eight
times). -/
def b64_24As : Str := pys "QUFBQUFBQUFBQUFBQUFBQUFBQUFBQUFB"

/-- Two ordinary 24-byte Python files. -/
def c1TreeA : List TreeItem :=
  [{ type := pys "blob", path := pys "a.py", size := some 24 },
   { type := pys "blob", path := pys "b.py", size := some 24 }]

/-- A contents oracle serving the same 24-byte body for every path. -/
def c1Gf : Str → Option FileObj :=
  fun _ => some { type := pys "file", content := b64_24As }

/-- A configuration with `max_files = 0` and a 10-character budget. -/
def c1SettingsB : Settings :=
  { max_files := 0, max_file_bytes := 80000,
    max_total_context_chars := 10, max_readme_chars := 18000 }

/-- A 24-byte README response. -/
def c1Readme : ReadmeObj := { path := some (pys "README.md"), content := b64_24As }

/-- C1, the claim as stated, is false on two counts.  Run A (budget 30):
after the first 24-character file the total is 24, still below the
budget, so a second file is fetched and truncated only to
`min(12000, max(2000, 30 - 24)) = 2000`; the final sum is 48 > 30.  Run
B (`max_files = 0`, budget 10): the README entry is appended without
consulting either limit, the selection has 1 > 0 entries and the sum is
24 > 10. -/
theorem C1_counterexample :
    ((select_and_load_files c1SettingsA asciiDecode pjKeysNone none c1Gf c1TreeA).map
        (fun out => (out.1.length, contentSum out.1)) = some (2, 48)) ∧
      ¬ (48 ≤ c1SettingsA.max_total_context_chars) ∧
      ((select_and_load_files c1SettingsB asciiDecode pjKeysNone (some c1Readme) gfNone
          []).map (fun out => (out.1.length, contentSum out.1)) = some (1, 24)) ∧
      ¬ ((1 : Nat) ≤ c1SettingsB.max_files) ∧
      ¬ (24 ≤ c1SettingsB.max_total_context_chars) := by
  refine ⟨by rfl, by decide, by rfl, by decide, by decide⟩

/-- The selection entry the README step creates on success. -/
def readmeEntry (st : Settings) (utf8 : Bytes → Str) (r : ReadmeObj) (b : Bytes) :
    SelectedFile where
  path := r.path.getD (pys "README")
  reason := pys "README"
  content := truncate (utf8 b) st.max_readme_chars

/-- C2: in every produced selection, if the dedicated `/readme` fetch
succeeds with truthy content that decodes as non-binary, the README is
the first selected entry (with reason `"README"` and the
README-truncated text); and unconditionally at most one entry with
reason `"README"` appears — a README-named candidate is skipped in the
fetch loop whenever a `"README"`-reason entry already exists, and only
README-named candidates are ever given that reason by `score_path`. -/
theorem C2_readme_first (st : Settings) (utf8 : Bytes → Str) (pjKeys : Str → List Str)
    (gr : Option ReadmeObj) (gf : Str → Option FileObj) (tree : List TreeItem)
    (sel : List SelectedFile) (hint : Str) (tech : List Str)
    (h : select_and_load_files st utf8 pjKeys gr gf tree = some (sel, hint, tech)) :
    (∀ r, gr = some r → r.content ≠ [] →
      ∀ b, safe_b64decode r.content = some b → is_probably_binary_bytes b = false →
        sel.head? = some (readmeEntry st utf8 r b)) ∧
      sel.countP isReadmeReason ≤ 1 := by
  unfold select_and_load_files at h
  cases hsel0 : readmeSelection st utf8 gr with
  | none => rw [hsel0] at h; exact absurd h (by simp)
  | some sel0 =>
    rw [hsel0] at h
    dsimp only at h
    cases hloop : fetch_loop st utf8 gf (sortedCands st tree) sel0 (contentSum sel0) emptyMap with
    | none => rw [hloop] at h; exact absurd h (by simp)
    | some out =>
      obtain ⟨selF, loadedF⟩ := out
      rw [hloop] at h
      dsimp only at h
      simp only [Option.some.injEq, Prod.mk.injEq] at h
      obtain ⟨hsel, -, -⟩ := h
      subst hsel
      constructor
      · intro r hr hcont b hb hbin
        subst hr
        have hread : readmeSelection st utf8 (some r) = some [readmeEntry st utf8 r b] := by
          simp [readmeSelection, hcont, hb, hbin, readmeEntry]
        rw [hread] at hsel0
        have hsel0' : sel0 = [readmeEntry st utf8 r b] := by
          exact (Option.some.inj hsel0).symm
        subst hsel0'
        obtain ⟨ext, hext⟩ := fetch_loop_extends st utf8 gf (sortedCands st tree) _ _
          emptyMap (selF, loadedF) hloop
        dsimp only at hext
        rw [hext]
        rfl
      · have hcands : ∀ c ∈ sortedCands st tree,
            c.reason = pys "README" → isReadmeName c.path = true := by
          intro c hc hr
          refine score_path_reason c.path c.size ?_
          rw [← buildLists_reason st tree c (sortedCands_mem st tree c hc)]
          exact hr
        exact fetch_loop_readme_count st utf8 gf (sortedCands st tree) sel0
          (contentSum sel0) emptyMap (selF, loadedF) hcands
          (readmeSelection_count st utf8 gr sel0 hsel0).2 hloop

/-- A successful `/readme` response: `"QUFB"` is base64 of `b"AAA"`. -/
def c2Readme : ReadmeObj := { path := some (pys "README.md"), content := pys "QUFB" }

theorem C2_witness :
    ([(⟨pys "README.md", pys "README", pys "AAA"⟩ : SelectedFile)].head?
        = some (readmeEntry defaultSettings asciiDecode c2Readme [65, 65, 65])) ∧
      List.countP isReadmeReason
        [(⟨pys "README.md", pys "README", pys "AAA"⟩ : SelectedFile)] ≤ 1 := by
  have h := C2_readme_first defaultSettings asciiDecode pjKeysNone (some c2Readme) gfNone []
    [⟨pys "README.md", pys "README", pys "AAA"⟩]
    (pys "Top-level layout: (could not infer)") [] (by rfl)
  exact ⟨h.1 c2Readme rfl (by decide) [65, 65, 65] (by rfl) (by rfl), h.2⟩

/-- `all_paths` is exactly the path of every blob-typed entry with a
truthy path, in listing order — directory (`"tree"`-typed) entries are
never collected. -/
theorem allPaths_eq (st : Settings) :
    ∀ items : List TreeItem, allPaths st items =
      (items.filter (fun it =>
        decide (it.type = pys "blob") && decide (it.path ≠ []))).map TreeItem.path := by
  intro items
  induction items with
  | nil => rfl
  | cons it rest ih =>
    unfold allPaths at ih ⊢
    simp only [buildLists]
    split
    · next hty => simp [List.filter_cons, hty, ih]
    · next hty =>
      have hty' : it.type = pys "blob" := not_not.mp (by simpa using hty)
      split
      · next hpath => simp [List.filter_cons, hty', hpath, ih]
      · next hpath =>
        split
        · simp [List.filter_cons, hty', hpath, ih]
        · split
          · simp [List.filter_cons, hty', hpath, ih]
          · simp [List.filter_cons, hty', hpath, ih]

theorem topItems_length_le (paths : List Str) : (topItems paths).length ≤ 8 :=
  List.length_take_le 8 _

theorem topItems_sorted (paths : List Str) :
    (topItems paths).Pairwise (fun a b : Str × Nat => b.2 ≤ a.2) := by
  haveI : IsTotal (Str × Nat) (fun a b => b.2 ≤ a.2) := ⟨fun a b => Nat.le_total b.2 a.2⟩
  haveI : IsTrans (Str × Nat) (fun a b => b.2 ≤ a.2) := ⟨fun a b c h1 h2 => Nat.le_trans h2 h1⟩
  exact List.Pairwise.sublist (List.take_sublist 8 _)
    (List.sorted_insertionSort _ (topCounts paths))

/-- C9 (amended): the structure hint of every produced selection is
`build_structure_hint` of the *blob* entries' paths (taken before the
ignore/text-candidate filters but *after* the `type == "blob"` filter —
directory entries are not counted, contrary to the claim); the rendered
items are the first 8 of the stable descending-count order (hence the 8
most frequent top-level segments); and an empty path listing renders
the could-not-infer message. -/
theorem C9_amended (st : Settings) (utf8 : Bytes → Str) (pjKeys : Str → List Str)
    (gr : Option ReadmeObj) (gf : Str → Option FileObj) (tree : List TreeItem)
    (sel : List SelectedFile) (hint : Str) (tech : List Str)
    (h : select_and_load_files st utf8 pjKeys gr gf tree = some (sel, hint, tech)) :
    hint = build_structure_hint (allPaths st tree) ∧
      allPaths st tree = (tree.filter (fun it =>
        decide (it.type = pys "blob") && decide (it.path ≠ []))).map TreeItem.path ∧
      build_structure_hint [] = pys "Top-level layout: (could not infer)" ∧
      (∀ paths : List Str, (topItems paths).length ≤ 8 ∧
        (topItems paths).Pairwise (fun a b => b.2 ≤ a.2)) := by
  unfold select_and_load_files at h
  cases hsel0 : readmeSelection st utf8 gr with
  | none => rw [hsel0] at h; exact absurd h (by simp)
  | some sel0 =>
    rw [hsel0] at h
    dsimp only at h
    cases hloop : fetch_loop st utf8 gf (sortedCands st tree) sel0 (contentSum sel0) emptyMap with
    | none => rw [hloop] at h; exact absurd h (by simp)
    | some out =>
      obtain ⟨selF, loadedF⟩ := out
      rw [hloop] at h
      dsimp only at h
      simp only [Option.some.injEq, Prod.mk.injEq] at h
      obtain ⟨-, hhint, -⟩ := h
      exact ⟨hhint.symm, allPaths_eq st tree, rfl,
        fun paths => ⟨topItems_length_le paths, topItems_sorted paths⟩⟩

theorem C9_amended_witness :
    pys "Top-level layout: (could not infer)" =
        build_structure_hint (allPaths defaultSettings []) ∧
      allPaths defaultSettings [] = (([] : List TreeItem).filter (fun it =>
        decide (it.type = pys "blob") && decide (it.path ≠ []))).map TreeItem.path ∧
      build_structure_hint [] = pys "Top-level layout: (could not infer)" ∧
      (∀ paths : List Str, (topItems paths).length ≤ 8 ∧
        (topItems paths).Pairwise (fun a b => b.2 ≤ a.2)) :=
  C9_amended defaultSettings asciiDecode pjKeysNone none gfNone [] []
    (pys "Top-level layout: (could not infer)") [] (by rfl)

/-- A tree with one directory entry (`src`, type `"tree"`) and one file
entry (`a.py`, type `"blob"`). -/
def c9Tree : List TreeItem :=
  [{ type := pys "tree", path := pys "src", size := none },
   { type := pys "blob", path := pys "a.py", size := none }]

/-- C9, the claim as stated, is false: the code collects `all_paths`
only from `type == "blob"` items, so the directory entry `src` is not
counted, while the claim's "file and directory entries alike" listing
would also count `src`. -/
theorem C9_counterexample :
    ((select_and_load_files defaultSettings asciiDecode pjKeysNone none gfNone c9Tree).map
        (fun out => out.2.1) = some (build_structure_hint [pys "a.py"])) ∧
      build_structure_hint [pys "a.py"] = pys "Top-level layout: `a.py` (1)" ∧
      build_structure_hint [pys "src", pys "a.py"] =
        pys "Top-level layout: `src/` (1 items), `a.py` (1)" ∧
      build_structure_hint [pys "a.py"] ≠ build_structure_hint [pys "src", pys "a.py"] := by
  refine ⟨by rfl, by rfl, by rfl, by decide⟩

/-! ### Summarizer (`services/summarizer.py`, `services/llm_client.py`) -/

/-- The validated LLM payload (`LlmSummary`: summary, technologies,
structure; the last field is renamed `structureDesc`, `structure` being
a Lean keyword). -/
structure ParsedSummary where
  summary : Str
  technologies : List Str
  structureDesc : Str
deriving DecidableEq

/-- The technology normalisation loop of `RepoSummarizer.summarize`:
strip each entry, drop empties, keep the first occurrence of each
lower-cased key preserving its casing, cap at 15. -/
def normalizeTech (ts : List Str) : List Str :=
  (ts.foldl (fun (acc : List Str × List Str) t =>
    let t2 := pyStrip t
    if t2 = [] then acc
    else if (t2.map Char.toLower) ∈ acc.2 then acc
    else (acc.1 ++ [t2], acc.2 ++ [t2.map Char.toLower])) ([], [])).1.take 15

/-- The outcome of a Python call: a returned value, a raised `AppError`,
or some other raised exception. -/
inductive PyOutcome (α : Type) where
  | ok (a : α)
  | appError (e : AppError)
  | exc (msg : Str)
deriving DecidableEq

/-- `llm_client.py`, `NebiusLLMClient.chat_json_schema`: raises
`upstream_error` when no key is configured, wraps any transport
exception (modelled by the `Except Str Str` oracle's error) in
`upstream_error`, else returns the response text. -/
def chat_json_schema (enabled : Bool) (transport : Except Str Str) : Except AppError Str :=
  if !enabled then
    .error (upstream_error (pys "NEBIUS_API_KEY is not set; LLM call is disabled"))
  else
    match transport with
    | .error e => .error (upstream_error (pys "Nebius LLM call failed: " ++ e))
    | .ok s => .ok s

/-- `llm_client.py`, `NebiusLLMClient.chat_json_object`: the same raise
behaviour as the schema call. -/
def chat_json_object (enabled : Bool) (transport : Except Str Str) : Except AppError Str :=
  if !enabled then
    .error (upstream_error (pys "NEBIUS_API_KEY is not set; LLM call is disabled"))
  else
    match transport with
    | .error e => .error (upstream_error (pys "Nebius LLM call failed: " ++ e))
    | .ok s => .ok s

/-- `summarizer.py`, `RepoSummarizer.summarize`, error flow.  `parseLlm`
abstracts `json.loads(raw)` followed by `LlmSummary(**data)` (`none` =
either raises).  The strict call's result is obtained *outside* any
`try`; the `except` around the first parse covers only that parse; the
fallback call sits inside the `except`, but its own `json.loads` /
`LlmSummary` validation is *not* guarded — a failure there escapes as
the raw exception (`PyOutcome.exc`). -/
def summarize (enabled : Bool) (schemaTransport objectTransport : Except Str Str)
    (parseLlm : Str → Option ParsedSummary) : PyOutcome ParsedSummary :=
  match chat_json_schema enabled schemaTransport with
  | .error e => .appError e
  | .ok raw =>
    match parseLlm raw with
    | some p => .ok { p with technologies := normalizeTech p.technologies }
    | none =>
      match chat_json_object enabled objectTransport with
      | .error e => .appError e
      | .ok raw2 =>
        match parseLlm raw2 with
        | some p => .ok { p with technologies := normalizeTech p.technologies }
        | none => .exc (pys "json.loads / LlmSummary validation error")

/-- The status code of a surfaced `AppError`, `none` for a normal return
or a non-`AppError` exception. -/
def surfacedStatus {α : Type} : PyOutcome α → Option Nat
  | .appError e => some e.status_code
  | _ => none

theorem chat_json_schema_error (enabled : Bool) (t : Except Str Str) (e : AppError)
    (h : chat_json_schema enabled t = .error e) : e.status_code = 502 := by
  unfold chat_json_schema at h
  split at h
  · cases h; rfl
  · split at h
    · cases h; rfl
    · exact absurd h (by simp)

theorem chat_json_object_error (enabled : Bool) (t : Except Str Str) (e : AppError)
    (h : chat_json_object enabled t = .error e) : e.status_code = 502 := by
  unfold chat_json_object at h
  split at h
  · cases h; rfl
  · split at h
    · cases h; rfl
    · exact absurd h (by simp)

/-- C7 (amended): every `AppError` that `summarize` surfaces is an
upstream 502 — this covers a failing strict transport call and a
failing fallback transport call.  But a decode/validation failure of
the *fallback* response is not wrapped: it escapes as the raw
`json.loads`/pydantic exception (see the counterexample), which the
application-level handler turns into a generic 500, not a 502. -/
theorem C7_amended (enabled : Bool) (sc oc : Except Str Str)
    (pl : Str → Option ParsedSummary) (e : AppError)
    (h : summarize enabled sc oc pl = .appError e) : e.status_code = 502 := by
  unfold summarize at h
  split at h
  · next e' heq =>
    cases h
    exact chat_json_schema_error enabled sc _ heq
  · next raw heq =>
    split at h
    · exact absurd h (by simp)
    · split at h
      · next e' heq2 =>
        cases h
        exact chat_json_object_error enabled oc _ heq2
      · next raw2 heq2 =>
        split at h
        · exact absurd h (by simp)
        · exact absurd h (by simp)

theorem C7_amended_witness :
    (upstream_error (pys "NEBIUS_API_KEY is not set; LLM call is disabled")).status_code = 502 :=
  C7_amended false (.ok (pys "")) (.ok (pys "")) (fun _ => none)
    (upstream_error (pys "NEBIUS_API_KEY is not set; LLM call is disabled")) (by rfl)

/-- The parse oracle of a run in which the model twice returns text that
is not JSON: `json.loads("not json")` raises `ValueError`, so both
parse attempts fail. -/
def plNone : Str → Option ParsedSummary := fun _ => none

/-- C7, the claim as stated, is false: when the strict response fails
validation and the fallback *transport* call succeeds but its response
also fails `json.loads`/`LlmSummary` validation, the raised decode
exception is not wrapped — the surfaced error is not an `AppError` at
all (so not an UpstreamError 502; FastAPI's generic handler returns
500). -/
theorem C7_counterexample :
    summarize true (.ok (pys "not json")) (.ok (pys "also not json")) plNone =
        .exc (pys "json.loads / LlmSummary validation error") ∧
      surfacedStatus (summarize true (.ok (pys "not json"))
        (.ok (pys "also not json")) plNone) = none := by
  exact ⟨rfl, rfl⟩

/-! ### No-LLM fallback (`services/summarize_service.py`, lines 77–90) -/

/-- The shape of the fallback response dictionary. -/
structure FallbackSummary where
  summary : Str
  technologies : List Str
  structureDesc : Str
deriving DecidableEq

/-- `summarize_service.py`, the `not self.llm.enabled` branch of
`summarize_repo`: a templated summary, the technologies
`list((list(languages.keys()) + extracted_tech)[:12]) or ["Unknown"]`
(`languages` is passed as its key list, in response order), and the
structure hint. -/
def fallback_summary (full_name description : Str) (languages : List Str)
    (extracted_tech : List Str) (structure_hint : Str) : FallbackSummary where
  summary :=
    pys "**" ++ full_name ++ pys "** is a software repository. GitHub description: "
      ++ (if description = [] then pys "N/A" else description)
      ++ pys ". This response was generated without an LLM because `NEBIUS_API_KEY` is not set."
  technologies :=
    if (languages ++ extracted_tech).take 12 = [] then [pys "Unknown"]
    else (languages ++ extracted_tech).take 12
  structureDesc := structure_hint

/-- C10: in the no-LLM fallback the technologies list is never empty and
has at most 12 entries: it is the reported language names followed by
the extracted technologies, truncated to 12, with `["Unknown"]`
substituted exactly when both sources are empty. -/
theorem C10_fallback_technologies (full_name description : Str)
    (languages extracted_tech : List Str) (structure_hint : Str) :
    (fallback_summary full_name description languages extracted_tech
        structure_hint).technologies ≠ [] ∧
      (fallback_summary full_name description languages extracted_tech
        structure_hint).technologies.length ≤ 12 ∧
      (languages ++ extracted_tech ≠ [] →
        (fallback_summary full_name description languages extracted_tech
          structure_hint).technologies = (languages ++ extracted_tech).take 12) ∧
      (languages ++ extracted_tech = [] →
        (fallback_summary full_name description languages extracted_tech
          structure_hint).technologies = [pys "Unknown"]) := by
  unfold fallback_summary
  dsimp only
  by_cases h : (languages ++ extracted_tech).take 12 = []
  · have hnil : languages ++ extracted_tech = [] := by
      rcases List.take_eq_nil_iff.mp h with h12 | hl
      · exact absurd h12 (by decide)
      · exact hl
    rw [if_pos h]
    refine ⟨by simp, by simp, ?_, fun _ => rfl⟩
    intro hne
    exact absurd hnil hne
  · rw [if_neg h]
    refine ⟨h, List.length_take_le 12 _, fun _ => rfl, ?_⟩
    intro hnil
    exact absurd (by rw [hnil]; rfl) h

theorem C10_fallback_witness :
    (fallback_summary (pys "acme/widgets") (pys "") [pys "Python"] [] (pys "h")).technologies ≠ [] ∧
      (fallback_summary (pys "acme/widgets") (pys "") [pys "Python"] []
        (pys "h")).technologies.length ≤ 12 ∧
      ([pys "Python"] ++ ([] : List Str) ≠ [] →
        (fallback_summary (pys "acme/widgets") (pys "") [pys "Python"] []
          (pys "h")).technologies = ([pys "Python"] ++ ([] : List Str)).take 12) ∧
      ([pys "Python"] ++ ([] : List Str) = [] →
        (fallback_summary (pys "acme/widgets") (pys "") [pys "Python"] []
          (pys "h")).technologies = [pys "Unknown"]) :=
  C10_fallback_technologies (pys "acme/widgets") (pys "") [pys "Python"] [] (pys "h")
